import Mathlib

/-!
Verification of the core pipeline of the Arezzo municipal chatbot
(files src/core/embeddings.py and src/core/scraper.py).

The Python code is shallowly embedded as executable Lean definitions.
External libraries are abstracted as parameters:
* the tiktoken encoder is a pair of functions bundled in a Tokenizer;
* the OpenAI embedding call is a function from chunk text to a vector
  of an abstract type V (the API returns one vector per input chunk);
* network fetches, BeautifulSoup extraction, link collection, urljoin
  and the md5 digest of the crawler are fields of a CrawlEnv record.
Machine-level details (numpy float32 arrays, the FAISS binary blob) are
modelled as plain lists of the abstract vector type; the FAISS nearest
neighbour search result is passed to the retrieval model as the list of
returned integer ids, which is all the post-processing loop inspects.
-/

/-! ### Chunking (embeddings.py, section 1) -/

/-- A tokenizer in the role of tiktoken cl100k_base: an encode function
to token lists and a decode function back to strings. -/
structure Tokenizer (Tok : Type) where
  encode : String → List Tok
  decode : List Tok → String

/-- Token budget per chunk, embeddings.py line 18. -/
def MAX_TOKENS_PER_CHUNK : Nat := 6000

/-- The while loop of chunk_text (embeddings.py lines 40-45): while
tokens remain, slice off the next maxTokens tokens.  The fuel argument
is instantiated with the token count; one token at least is consumed per
iteration whenever maxTokens is positive, so that much fuel is exact.
(With maxTokens = 0 the Python loop would not terminate.) -/
def chunkLoop {Tok : Type} (maxTokens : Nat) : Nat → List Tok → List (List Tok)
  | _, [] => []
  | 0, _ :: _ => []
  | fuel + 1, t :: ts => (t :: ts).take maxTokens :: chunkLoop maxTokens fuel ((t :: ts).drop maxTokens)

/-- chunk_text (embeddings.py lines 34-47): encode, slice the token list
into windows of maxTokens, decode each window. -/
def chunk_text {Tok : Type} (tz : Tokenizer Tok) (text : String) (maxTokens : Nat) : List String :=
  (chunkLoop maxTokens (tz.encode text).length (tz.encode text)).map tz.decode

/-! ### Documents

Crawler documents (scraper.py lines 196-204) carry seven keys; manually
uploaded documents (app.py line 135) carry the two keys source and text.
Python compares these dictionaries by full structural equality in the
dedup filter of build_embeddings_incremental, so the two shapes are kept
as distinct structures joined in a sum type. -/

/-- One crawled page as appended to results in scraper.py lines 196-204.
meta_description and meta_keywords may be Python None. -/
structure CrawlDoc where
  url : String
  title : String
  text : String
  meta_description : Option String
  meta_keywords : Option String
  breadcrumbs : List String
  content_type : String
deriving DecidableEq

/-- One manually uploaded document, app.py line 135. -/
structure UploadDoc where
  source : String
  text : String
deriving DecidableEq

/-- A document dictionary as it appears in the JSON stores. -/
abbrev PyDoc : Type := CrawlDoc ⊕ UploadDoc

/-- Rendering of an optional metadata value inside the enrichment
f-string: a Python None value prints as the four characters None. -/
def pyStr : Option String → String
  | some s => s
  | none => "None"

/-- The enriched text built in embeddings.py lines 152-158: title,
breadcrumb path wrapped in double quotes, meta description, meta
keywords and body, separated by single spaces.  (Line 154 of the source
carries a stray backslash before each double quote, a quoting slip; the
evident intent, a quoted breadcrumb path, is embedded here.)  For
uploaded documents every key except text is absent, so each dict.get
falls back to its default: empty title, empty breadcrumb list, empty
metadata strings. -/
def enrich : PyDoc → String
  | Sum.inl d =>
      d.title ++ " " ++ "\"" ++ String.intercalate " > " d.breadcrumbs ++ "\"" ++ " " ++
        pyStr d.meta_description ++ " " ++ pyStr d.meta_keywords ++ " " ++ d.text
  | Sum.inr u =>
      "" ++ " " ++ "\"" ++ String.intercalate " > " [] ++ "\"" ++ " " ++
        "" ++ " " ++ "" ++ " " ++ u.text

/-! ### Persisted embedding state (embeddings.py sections 3-5) -/

/-- The three persisted stores: docs.json, chunk_map.json and the FAISS
index file.  index = none models a missing index file (load_index
returns None); a present index is its list of stored vectors. -/
structure EmbState (V : Type) where
  docs : List PyDoc
  chunkMap : List Nat
  index : Option (List V)

/-- Number of vectors held by the FAISS index (0 when the file is
missing). -/
def vectorCount {V : Type} (st : EmbState V) : Nat :=
  match st.index with
  | none => 0
  | some vs => vs.length

/-- Accumulator of the per-document loop of
build_embeddings_incremental: the growing docs list, the new vectors
and the new chunk-map entries. -/
structure BuildAcc (V : Type) where
  docs : List PyDoc
  vecs : List V
  entries : List Nat

/-- Body of the for-loop over to_embed_docs (embeddings.py lines
151-169): chunk the enriched text, embed every chunk, record one
chunk-map entry per vector holding the current docs length, then append
the document. -/
def processDoc {Tok V : Type} (tz : Tokenizer Tok) (embedFn : String → V)
    (acc : BuildAcc V) (d : PyDoc) : BuildAcc V :=
  let chunks := chunk_text tz (enrich d) MAX_TOKENS_PER_CHUNK
  { docs := acc.docs ++ [d],
    vecs := acc.vecs ++ chunks.map embedFn,
    entries := acc.entries ++ List.replicate chunks.length acc.docs.length }

/-- Python membership test (the in operator) on a list of document
dictionaries: structural equality against some element. -/
def pyMem (d : PyDoc) (l : List PyDoc) : Bool :=
  l.any (fun x => decide (x = d))

/-- The new-document filter of embeddings.py lines 131-138: concatenate
crawler output and uploads, keep the dictionaries not already present in
the saved docs (whole-record equality). -/
def toEmbedDocs {V : Type} (st : EmbState V)
    (crawlerDocs : List CrawlDoc) (uploadedDocs : List UploadDoc) : List PyDoc :=
  (crawlerDocs.map Sum.inl ++ uploadedDocs.map Sum.inr).filter
    (fun d => ! pyMem d st.docs)

/-- Outcome of one build_embeddings_incremental run: the stores as
saved on return, and the number of documents embedded (the function
issues exactly one embedding API call per processed document). -/
structure BuildResult (V : Type) where
  state : EmbState V
  processed : Nat

/-- build_embeddings_incremental (embeddings.py lines 105-193).  When
no new document is found the function returns before touching any
store.  Otherwise every new document is chunked and embedded, the new
vectors are appended to the index (created fresh when the file was
missing) and the chunk map is extended in lock-step.  A new document
whose enriched text yields zero chunks would make the real code raise
inside the embedding call / np.vstack before anything is saved; that
exceptional run is modelled as none. -/
def build_embeddings_incremental {Tok V : Type} (tz : Tokenizer Tok)
    (embedFn : String → V) (st : EmbState V)
    (crawlerDocs : List CrawlDoc) (uploadedDocs : List UploadDoc) :
    Option (BuildResult V) :=
  let toEmbed := toEmbedDocs st crawlerDocs uploadedDocs
  if toEmbed.isEmpty then some { state := st, processed := 0 }
  else if toEmbed.any (fun d => (chunk_text tz (enrich d) MAX_TOKENS_PER_CHUNK).isEmpty) then
    none
  else
    let acc := toEmbed.foldl (processDoc tz embedFn) { docs := st.docs, vecs := [], entries := [] }
    some { state := { docs := acc.docs, chunkMap := st.chunkMap ++ acc.entries,
                      index := some (st.index.getD [] ++ acc.vecs) },
           processed := toEmbed.length }

/-! ### Semantic search (embeddings.py section 6) -/

/-- Python list subscript on a Nat list with a possibly negative numpy
index: a negative index counts from the right; an out of range access
is an IndexError, modelled as none. -/
def pyListGet (l : List Nat) (i : Int) : Option Nat :=
  if 0 ≤ i then l.get? i.toNat
  else if 0 ≤ i + l.length then l.get? (i + (l.length : Int)).toNat
  else none

/-- The result-resolution loop of search_similar (embeddings.py lines
211-217): for every returned FAISS id, when it passes the idx <
len(chunk_map) guard, read the owning document id (Python subscript:
a FAISS -1 placeholder reads the LAST entry; on an empty chunk map it
raises, hence the Option) and append the document when the id is in
range.  No deduplication is performed. -/
def resolveHits (docs : List PyDoc) (cm : List Nat) : List Int → Option (List PyDoc)
  | [] => some []
  | idx :: rest =>
      if idx < (cm.length : Int) then
        match pyListGet cm idx with
        | none => none
        | some docId =>
            if h : docId < docs.length then
              (resolveHits docs cm rest).map (fun tl => docs.get ⟨docId, h⟩ :: tl)
            else resolveHits docs cm rest
      else resolveHits docs cm rest

/-- What one retrieved FAISS id contributes to the result list when
every id is non-negative: the document its chunk-map entry points to,
or nothing when an id or document id is out of range. -/
def hitOf (docs : List PyDoc) (cm : List Nat) (idx : Int) : Option PyDoc :=
  if idx < (cm.length : Int) then
    (pyListGet cm idx).bind (fun docId => docs.get? docId)
  else none

/-- search_similar (embeddings.py lines 199-218).  When the index file
is missing, load_index returns None and the function returns the empty
list at once.  Otherwise FAISS is searched; the returned ids (top_k
entries, -1 placeholders when the index holds fewer vectors) are passed
here as the hits argument and resolved through the chunk map. -/
def search_similar {V : Type} (st : EmbState V) (hits : List Int) :
    Option (List PyDoc) :=
  match st.index with
  | none => some []
  | some _ => resolveHits st.docs st.chunkMap hits

/-! ### URL handling (scraper.py lines 19-119)

urllib.parse is standard-library code; urlparse and urlunparse are
reimplemented here for the http(s) URL shapes this crawler handles
(scheme://host/path?query#fragment, or a bare path).  urljoin stays a
parameter of the crawl environment. -/

/-- Seed URL, scraper.py line 19. -/
def BASE_URL : String := "https://www.comune.arezzo.it"

/-- Host of the seed URL, scraper.py line 20. -/
def DOMAIN : String := "www.comune.arezzo.it"

/-- Concurrent request bound, scraper.py line 25. -/
def MAX_CONCURRENCY : Nat := 5

/-- Kernel-computable splitter behind the Python str.split used by the
model (the library splitOn is compiled by well-founded recursion and
does not reduce definitionally).  Greedy left-to-right split of a char
list at a non-empty separator; the fuel is the list length, one char at
least being consumed per step. -/
def splitOnCharsGo (s0 : Char) (srest : List Char) :
    Nat → List Char → List Char → List (List Char)
  | _, [], acc => [acc.reverse]
  | 0, l, acc => [acc.reverse ++ l]
  | fuel + 1, c :: rest, acc =>
      if (s0 :: srest).isPrefixOf (c :: rest) then
        acc.reverse :: splitOnCharsGo s0 srest fuel (rest.drop srest.length) []
      else splitOnCharsGo s0 srest fuel rest (c :: acc)

/-- Python str.split on a non-empty separator (an empty separator
returns the string whole, as String.splitOn does). -/
def splitOnStr (s sep : String) : List String :=
  match sep.data with
  | [] => [s]
  | s0 :: srest => (splitOnCharsGo s0 srest s.data.length s.data []).map String.mk

/-- Python str.endswith. -/
def strEndsWith (s suffix : String) : Bool :=
  suffix.data.isSuffixOf s.data

/-- Python str.lower (ASCII, which is all the compared literals use). -/
def lowerStr (s : String) : String :=
  String.mk (s.data.map Char.toLower)

/-- Removal of the last n characters (the slicing in normalize_url). -/
def strDropRight (s : String) (n : Nat) : String :=
  String.mk (s.data.take (s.data.length - n))

/-- Split a string at the first occurrence of a separator; none when
the separator does not occur. -/
def splitOnce (s sep : String) : String × Option String :=
  match splitOnStr s sep with
  | [] => (s, none)
  | [x] => (x, none)
  | x :: rest => (x, some (String.intercalate sep rest))

/-- The five urlparse components this code reads. -/
structure ParsedUrl where
  scheme : String
  netloc : String
  path : String
  query : String
  fragment : String
deriving DecidableEq

/-- urllib.parse.urlparse restricted to the shapes used here: fragment
after the first hash sign, query after the first question mark, then
scheme before a scheme separator with the netloc running to the first
slash; without a scheme separator everything is path. -/
def urlparse (url : String) : ParsedUrl :=
  let p1 := splitOnce url "#"
  let fragment := p1.2.getD ""
  let p2 := splitOnce p1.1 "?"
  let query := p2.2.getD ""
  match splitOnStr p2.1 "://" with
  | scheme :: after0 :: rest =>
      let after := String.intercalate "://" (after0 :: rest)
      { scheme := lowerStr scheme,
        netloc := String.mk (after.data.takeWhile (fun c => c ≠ '/')),
        path := String.mk (after.data.dropWhile (fun c => c ≠ '/')),
        query := query, fragment := fragment }
  | _ => { scheme := "", netloc := "", path := p2.1, query := query, fragment := fragment }

/-- urlunparse (ParseResult.geturl) for the same URL shapes. -/
def ParsedUrl.geturl (p : ParsedUrl) : String :=
  (if p.scheme ≠ "" then p.scheme ++ "://" ++ p.netloc ++ p.path
   else if p.netloc ≠ "" then "//" ++ p.netloc ++ p.path
   else p.path)
  ++ (if p.query ≠ "" then "?" ++ p.query else "")
  ++ (if p.fragment ≠ "" then "#" ++ p.fragment else "")

/-- normalize_url (scraper.py lines 112-119): drop the fragment, make
an empty path the root path, strip one trailing slash from non-root
paths. -/
def normalize_url (url : String) : String :=
  let parsed := urlparse url
  let parsed := { parsed with fragment := "" }
  let path := if parsed.path = "" then "/" else parsed.path
  let path := if path ≠ "/" ∧ strEndsWith path "/" then strDropRight path 1 else path
  ({ parsed with path := path }).geturl

/-- Static-asset extensions rejected by the crawler, scraper.py line 39. -/
def staticExts : List String :=
  [".pdf", ".jpg", ".jpeg", ".png", ".gif", ".zip", ".doc", ".docx"]

/-- is_valid_url (scraper.py lines 31-41): http(s) scheme, same host
(or host-relative), and not a known static-asset extension. -/
def is_valid_url (url : String) : Bool :=
  let parsed := urlparse url
  if ¬ (parsed.scheme = "http" ∨ parsed.scheme = "https") then false
  else if parsed.netloc ≠ "" ∧ parsed.netloc ≠ DOMAIN then false
  else if staticExts.any (fun ext => strEndsWith (lowerStr url) ext) then false
  else true

/-- Substring test (the Python in operator on strings). -/
def substrOf (pat s : String) : Bool :=
  (splitOnStr s pat).length != 1

/-- guess_content_type (scraper.py lines 87-106): priority rules over
the lowercased URL path first, then over the lowercased breadcrumbs. -/
def guess_content_type (url : String) (breadcrumbs : List String) : String :=
  let path := lowerStr (urlparse url).path
  if ["notizie", "news"].any (fun seg => substrOf seg path) then "news"
  else if ["bandi", "gare"].any (fun seg => substrOf seg path) then "bando"
  else if substrOf "ordinanze" path then "ordinanza"
  else
    let crumbs := breadcrumbs.map lowerStr
    if crumbs.any (fun c => substrOf "notizie" c || substrOf "news" c) then "news"
    else if crumbs.any (fun c => substrOf "bando" c || substrOf "bandi" c || substrOf "gare" c) then "bando"
    else if crumbs.any (fun c => substrOf "ordinanze" c) then "ordinanza"
    else "pagina"

/-! ### The crawler (scraper.py lines 125-228) -/

/-- Output of extract_text_and_meta (scraper.py lines 47-81), the
BeautifulSoup part being opaque: flattened text, title (the code
substitutes a sentinel when missing), optional metadata, breadcrumbs. -/
structure Extracted where
  text : String
  title : String
  meta_description : Option String
  meta_keywords : Option String
  breadcrumbs : List String
deriving DecidableEq

/-- External collaborators of one crawl run.  netFetch returns the body
text of a 200 response and none on timeout, connection error or
non-200 status (fetch, scraper.py lines 125-132).  extract stands for
extract_text_and_meta, pageLinks for collecting the href attributes of
the anchor tags in document order, joinUrl for urllib.parse.urljoin and
hashFn for the md5 hex digest. -/
structure CrawlEnv where
  netFetch : String → Option String
  extract : String → Extracted
  pageLinks : String → List String
  joinUrl : String → String → String
  hashFn : String → Nat

/-- Mutable state of _crawl_async.  fetchLog is a model-side ledger of
every URL for which an HTTP request was issued, used to express
re-fetch properties; the Python code keeps no such list. -/
structure CrawlSt where
  visited : List String
  seenHashes : List Nat
  results : List CrawlDoc
  queue : List (String × Nat)
  fetchLog : List String
deriving DecidableEq

/-- Set-insertion of a URL into visited_urls (scraper.py line 176). -/
def markVisited (st : CrawlSt) (u : String) : CrawlSt :=
  { st with visited := if u ∈ st.visited then st.visited else st.visited ++ [u] }

/-- The include flag of scraper.py lines 191-193: a page is excluded
only when allowed_types is truthy (a non-empty set) and the guessed
type is not in it. -/
def includeBool (allowed : Option (List String)) (ct : String) : Bool :=
  match allowed with
  | none => true
  | some ts => ts.isEmpty || ts.any (fun x => decide (x = ct))

/-- The document dictionary appended to results, scraper.py lines
196-204. -/
def mkCrawlDoc (url : String) (e : Extracted) (ct : String) : CrawlDoc :=
  { url := url, title := e.title, text := e.text,
    meta_description := e.meta_description, meta_keywords := e.meta_keywords,
    breadcrumbs := e.breadcrumbs, content_type := ct }

/-- Link discovery for one kept page (scraper.py lines 207-212): every
href joined against the page URL, normalized, kept when valid and not
yet visited, enqueued one level deeper. -/
def newLinks (env : CrawlEnv) (st : CrawlSt) (url : String) (depth : Nat)
    (html : String) : List (String × Nat) :=
  (env.pageLinks html).filterMap (fun href =>
    let link := normalize_url (env.joinUrl url href)
    if is_valid_url link ∧ ¬ link ∈ st.visited then some (link, depth + 1) else none)

/-- The crawl-deeper step (scraper.py lines 207-212), guarded by the
depth bound and the page budget. -/
def enqueueLinks (env : CrawlEnv) (maxPages maxDepth : Nat) (st : CrawlSt)
    (url : String) (depth : Nat) (html : String) : CrawlSt :=
  if depth < maxDepth ∧ st.visited.length < maxPages then
    { st with queue := st.queue ++ newLinks env st url depth html }
  else st

/-- Processing of a fetched page past the thin-page filter (scraper.py
lines 184-212): hash the extracted text, drop the page when the hash
was already seen, otherwise record the hash, classify, append the
document when the type filter admits it, and enqueue its links. -/
def processThick (env : CrawlEnv) (maxPages maxDepth : Nat)
    (allowed : Option (List String)) (st : CrawlSt) (url : String) (depth : Nat)
    (html : String) (e : Extracted) : CrawlSt :=
  let h := env.hashFn e.text
  if h ∈ st.seenHashes then st
  else
    let st := { st with seenHashes := st.seenHashes ++ [h] }
    let ct := guess_content_type url e.breadcrumbs
    let st :=
      if includeBool allowed ct then
        { st with results := st.results ++ [mkCrawlDoc url e ct] }
      else st
    enqueueLinks env maxPages maxDepth st url depth html

/-- Processing of one completed fetch inside the as_completed loop
(scraper.py lines 172-212): a failed or empty body is skipped before
the URL is marked visited; then the page is extracted and, unless its
text is empty or shorter than 200 characters, handed to processThick. -/
def processTask (env : CrawlEnv) (maxPages maxDepth : Nat)
    (allowed : Option (List String)) (st : CrawlSt) (task : String × Nat) : CrawlSt :=
  let st := { st with fetchLog := st.fetchLog ++ [task.1] }
  match env.netFetch task.1 with
  | none => st
  | some html =>
      if html = "" then st
      else
        let st := markVisited st task.1
        let e := env.extract html
        if e.text = "" ∨ e.text.length < 200 then st
        else processThick env maxPages maxDepth allowed st task.1 task.2 html e

/-- One iteration of the while loop of _crawl_async (scraper.py lines
151-212): pop a batch of at most MAX_CONCURRENCY entries off the FIFO
queue, drop entries already visited or beyond the depth bound, and
process the remaining fetches.  asyncio.as_completed yields the
completed fetches in a scheduler-dependent order; the model processes
them in batch order, one admissible schedule. -/
def crawlStep (env : CrawlEnv) (maxPages maxDepth : Nat)
    (allowed : Option (List String)) (st : CrawlSt) : CrawlSt :=
  let batch := st.queue.take MAX_CONCURRENCY
  let tasks := batch.filter (fun t => decide (¬ t.1 ∈ st.visited ∧ t.2 ≤ maxDepth))
  tasks.foldl (processTask env maxPages maxDepth allowed)
    { st with queue := st.queue.drop MAX_CONCURRENCY }

/-- The while loop of _crawl_async: iterate crawlStep while the queue
is non-empty and fewer than maxPages URLs are visited.  The loop need
not terminate structurally, so it is run on explicit fuel; once the
queue empties further fuel changes nothing. -/
def crawlRun (env : CrawlEnv) (maxPages maxDepth : Nat)
    (allowed : Option (List String)) : Nat → CrawlSt → CrawlSt
  | 0, st => st
  | fuel + 1, st =>
      if st.queue ≠ [] ∧ st.visited.length < maxPages then
        crawlRun env maxPages maxDepth allowed fuel (crawlStep env maxPages maxDepth allowed st)
      else st

/-- Initial crawl state (scraper.py lines 139-146): empty stores and
the normalized start URL at depth 0. -/
def crawlInit (startUrl : String) : CrawlSt :=
  { visited := [], seenHashes := [], results := [],
    queue := [(normalize_url startUrl, 0)], fetchLog := [] }

/-- _crawl_async (scraper.py lines 138-214) as a function of the crawl
environment, returning the full final state. -/
def crawlAsync (env : CrawlEnv) (maxPages maxDepth : Nat)
    (allowed : Option (List String)) (startUrl : String) (fuel : Nat) : CrawlSt :=
  crawlRun env maxPages maxDepth allowed fuel (crawlInit startUrl)

/-- crawl_comune_arezzo (scraper.py lines 220-228): the Streamlit-safe
wrapper turns a falsy content_types argument (absent or empty list)
into None, then runs the crawl from BASE_URL and returns its results
list. -/
def crawl_comune_arezzo (env : CrawlEnv) (maxPages maxDepth : Nat)
    (contentTypes : Option (List String)) (fuel : Nat) : List CrawlDoc :=
  let allowed : Option (List String) :=
    match contentTypes with
    | none => none
    | some [] => none
    | some l => some l
  (crawlAsync env maxPages maxDepth allowed BASE_URL fuel).results

/-! ### Derived notions used in the claim statements -/

/-- The url key of a stored document dictionary; uploads have none. -/
def docUrl : PyDoc → Option String
  | Sum.inl d => some d.url
  | Sum.inr _ => none

/-- Number of Document Store entries keyed by a given URL. -/
def countUrl (u : String) (docs : List PyDoc) : Nat :=
  (docs.filter (fun d => decide (docUrl d = some u))).length

/-- The store invariant of the spec: the chunk map is as long as the
vector index and every entry indexes into the document store. -/
def embInvariant {V : Type} (st : EmbState V) : Prop :=
  st.chunkMap.length = vectorCount st ∧ ∀ e ∈ st.chunkMap, e < st.docs.length

/-! ### Concrete instances for witnesses and counterexamples -/

/-- A tokenizer with characters as tokens; encode and decode invert
each other exactly, like the real byte-pair encoder on valid text. -/
def tzChar : Tokenizer Char :=
  { encode := fun s => s.data, decode := fun l => String.mk l }

/-- A one-point embedding collaborator. -/
def embedU : String → Unit := fun _ => ()

/-- URL of the page used in the store examples. -/
def urlA : String := "https://www.comune.arezzo.it/a"

/-- The stored version of the page at urlA. -/
def dOld : CrawlDoc :=
  { url := urlA, title := "T", text := "old text", meta_description := none,
    meta_keywords := none, breadcrumbs := [], content_type := "pagina" }

/-- The re-crawled, changed version of the page at urlA. -/
def dNew : CrawlDoc :=
  { url := urlA, title := "T", text := "new text", meta_description := none,
    meta_keywords := none, breadcrumbs := [], content_type := "pagina" }

/-- A store holding exactly the old document, one chunk, one vector. -/
def stOne : EmbState Unit :=
  { docs := [Sum.inl dOld], chunkMap := [0], index := some [()] }

/-- The store after re-ingesting the changed page: the old and the new
version coexist. -/
def rTwo : BuildResult Unit :=
  { state := { docs := [Sum.inl dOld, Sum.inl dNew], chunkMap := [0, 1],
               index := some [(), ()] },
    processed := 1 }

/-- A store in which two chunk-map entries point at the same document. -/
def stDup : EmbState Unit :=
  { docs := [Sum.inl dOld], chunkMap := [0, 0], index := some [(), ()] }

/-- A 200-character body: exactly at the thin-page threshold, kept. -/
def xs200 : String := String.mk (List.replicate 200 'x')

/-- A 201-character body with a different hash than xs200. -/
def ys201 : String := String.mk (List.replicate 201 'y')

/-- The normalized seed URL. -/
def urlRoot : String := "https://www.comune.arezzo.it/"

/-- Nine same-host links fanned out from the seed page. -/
def nineLinks : List String :=
  ["https://www.comune.arezzo.it/p1", "https://www.comune.arezzo.it/p2",
   "https://www.comune.arezzo.it/p3", "https://www.comune.arezzo.it/p4",
   "https://www.comune.arezzo.it/p5", "https://www.comune.arezzo.it/p6",
   "https://www.comune.arezzo.it/p7", "https://www.comune.arezzo.it/p8",
   "https://www.comune.arezzo.it/p9"]

/-- A site whose seed page links to nine further pages; every fetch
succeeds, only the seed page has substantial text. -/
def envFan : CrawlEnv :=
  { netFetch := fun u => if u = urlRoot then some "ROOT" else some "P",
    extract := fun h =>
      if h = "ROOT" then
        { text := xs200, title := "T", meta_description := none,
          meta_keywords := none, breadcrumbs := [] }
      else
        { text := "", title := "T", meta_description := none,
          meta_keywords := none, breadcrumbs := [] },
    pageLinks := fun h => if h = "ROOT" then nineLinks else [],
    joinUrl := fun _ href => href,
    hashFn := fun _ => 0 }

/-- A page reachable both from the seed and from page a, whose fetch
always fails. -/
def urlB : String := "https://www.comune.arezzo.it/b"

/-- A site where the seed links to a and b, a links to b again, and
every fetch of b errors. -/
def envBroken : CrawlEnv :=
  { netFetch := fun u =>
      if u = urlRoot then some "ROOT" else if u = urlA then some "PA" else none,
    extract := fun h =>
      if h = "ROOT" then
        { text := xs200, title := "T", meta_description := none,
          meta_keywords := none, breadcrumbs := [] }
      else if h = "PA" then
        { text := ys201, title := "T", meta_description := none,
          meta_keywords := none, breadcrumbs := [] }
      else
        { text := "", title := "T", meta_description := none,
          meta_keywords := none, breadcrumbs := [] },
    pageLinks := fun h =>
      if h = "ROOT" then [urlA, urlB] else if h = "PA" then [urlB] else [],
    joinUrl := fun _ href => href,
    hashFn := fun s => s.length }

/-- A thin page linked from the seed. -/
def urlT : String := "https://www.comune.arezzo.it/t"

/-- A site where the seed page is substantial and links to one page
whose extracted text is only four characters long. -/
def envThin : CrawlEnv :=
  { netFetch := fun u =>
      if u = urlRoot then some "ROOT" else if u = urlT then some "THIN" else none,
    extract := fun h =>
      if h = "ROOT" then
        { text := xs200, title := "T", meta_description := none,
          meta_keywords := none, breadcrumbs := [] }
      else if h = "THIN" then
        { text := "tiny", title := "T", meta_description := none,
          meta_keywords := none, breadcrumbs := [] }
      else
        { text := "", title := "T", meta_description := none,
          meta_keywords := none, breadcrumbs := [] },
    pageLinks := fun h => if h = "ROOT" then [urlT] else [],
    joinUrl := fun _ href => href,
    hashFn := fun s => s.length }

/-- The crawler document produced for the seed page of envThin. -/
def docRootThin : CrawlDoc :=
  { url := urlRoot, title := "T", text := xs200, meta_description := none,
    meta_keywords := none, breadcrumbs := [], content_type := "pagina" }

/-! ### Helper lemmas -/

theorem pyMem_iff (d : PyDoc) (l : List PyDoc) : pyMem d l = true ↔ d ∈ l := by
  simp [pyMem]

theorem chunkLoop_nil {Tok : Type} (m fuel : Nat) :
    chunkLoop m fuel ([] : List Tok) = [] := by
  cases fuel <;> rfl

theorem chunkLoop_mem_le {Tok : Type} (m : Nat) :
    ∀ (fuel : Nat) (ts : List Tok), ∀ c ∈ chunkLoop m fuel ts, c.length ≤ m
  | _, [], c, hc => by simp [chunkLoop_nil] at hc
  | 0, _ :: _, c, hc => by simp [chunkLoop] at hc
  | fuel + 1, t :: ts, c, hc => by
      simp only [chunkLoop, List.mem_cons] at hc
      rcases hc with rfl | hc
      · rw [List.length_take]
        exact Nat.min_le_left _ _
      · exact chunkLoop_mem_le m fuel _ c hc

theorem chunkLoop_single {Tok : Type} (m : Nat) (t : Tok) (ts : List Tok)
    (h : (t :: ts).length ≤ m) : chunkLoop m (t :: ts).length (t :: ts) = [t :: ts] := by
  show chunkLoop m (ts.length + 1) (t :: ts) = [t :: ts]
  unfold chunkLoop
  rw [List.take_of_length_le h, List.drop_eq_nil_of_le h, chunkLoop_nil]

theorem foldlPreserve {σ α : Type} (f : σ → α → σ) (P : σ → Prop)
    (h : ∀ s a, P s → P (f s a)) :
    ∀ (l : List α) (s : σ), P s → P (l.foldl f s)
  | [], _, hs => hs
  | a :: l, s, hs => foldlPreserve f P h l (f s a) (h s a hs)

theorem buildFold_docs {Tok V : Type} (tz : Tokenizer Tok) (f : String → V) :
    ∀ (l : List PyDoc) (acc : BuildAcc V),
      (l.foldl (processDoc tz f) acc).docs = acc.docs ++ l
  | [], acc => by simp
  | d :: l, acc => by
      rw [List.foldl_cons, buildFold_docs tz f l]
      simp [processDoc]

theorem buildFold_len {Tok V : Type} (tz : Tokenizer Tok) (f : String → V) :
    ∀ (l : List PyDoc) (acc : BuildAcc V), acc.vecs.length = acc.entries.length →
      (l.foldl (processDoc tz f) acc).vecs.length =
        (l.foldl (processDoc tz f) acc).entries.length
  | [], _, h => h
  | d :: l, acc, h => by
      rw [List.foldl_cons]
      refine buildFold_len tz f l _ ?_
      simp [processDoc, h]

theorem buildFold_entries {Tok V : Type} (tz : Tokenizer Tok) (f : String → V) :
    ∀ (l : List PyDoc) (acc : BuildAcc V), (∀ e ∈ acc.entries, e < acc.docs.length) →
      ∀ e ∈ (l.foldl (processDoc tz f) acc).entries,
        e < (l.foldl (processDoc tz f) acc).docs.length
  | [], _, h => h
  | d :: l, acc, h => by
      rw [List.foldl_cons]
      refine buildFold_entries tz f l _ ?_
      intro e he
      simp only [processDoc, List.mem_append] at he
      simp only [processDoc, List.length_append, List.length_cons]
      rcases he with he | he
      · have := h e he
        omega
      · have := List.eq_of_mem_replicate he
        omega

theorem markVisited_results (st : CrawlSt) (u : String) :
    (markVisited st u).results = st.results := rfl

theorem markVisited_hashes (st : CrawlSt) (u : String) :
    (markVisited st u).seenHashes = st.seenHashes := rfl

theorem enqueueLinks_results (env : CrawlEnv) (mp md : Nat) (st : CrawlSt)
    (u : String) (dep : Nat) (html : String) :
    (enqueueLinks env mp md st u dep html).results = st.results := by
  unfold enqueueLinks
  split <;> rfl

theorem enqueueLinks_visited (env : CrawlEnv) (mp md : Nat) (st : CrawlSt)
    (u : String) (dep : Nat) (html : String) :
    (enqueueLinks env mp md st u dep html).visited = st.visited := by
  unfold enqueueLinks
  split <;> rfl

theorem enqueueLinks_hashes (env : CrawlEnv) (mp md : Nat) (st : CrawlSt)
    (u : String) (dep : Nat) (html : String) :
    (enqueueLinks env mp md st u dep html).seenHashes = st.seenHashes := by
  unfold enqueueLinks
  split <;> rfl

theorem processThick_visited (env : CrawlEnv) (mp md : Nat)
    (al : Option (List String)) (st : CrawlSt) (u : String) (dep : Nat)
    (html : String) (e : Extracted) :
    (processThick env mp md al st u dep html e).visited = st.visited := by
  unfold processThick
  dsimp only
  split
  · rfl
  · split <;> rw [enqueueLinks_visited]

theorem mkCrawlDoc_url (u : String) (e : Extracted) (ct : String) :
    (mkCrawlDoc u e ct).url = u := rfl

theorem mkCrawlDoc_content_type (u : String) (e : Extracted) (ct : String) :
    (mkCrawlDoc u e ct).content_type = ct := rfl

theorem processThick_results (env : CrawlEnv) (mp md : Nat)
    (al : Option (List String)) (st : CrawlSt) (u : String) (dep : Nat)
    (html : String) (e : Extracted) :
    ∀ d ∈ (processThick env mp md al st u dep html e).results,
      d ∈ st.results ∨
        (d.url = u ∧ includeBool al d.content_type = true) := by
  intro d hd
  unfold processThick at hd
  dsimp only at hd
  split at hd
  · exact Or.inl hd
  · rename_i hnew
    split at hd
    · rename_i hinc
      rw [enqueueLinks_results] at hd
      simp only [List.mem_append, List.mem_singleton] at hd
      rcases hd with hd | hd2
      · exact Or.inl hd
      · refine Or.inr ?_
        rw [hd2, mkCrawlDoc_url, mkCrawlDoc_content_type]
        exact ⟨rfl, hinc⟩
    · rw [enqueueLinks_results] at hd
      exact Or.inl hd

theorem processThick_hashes (env : CrawlEnv) (mp md : Nat)
    (al : Option (List String)) (st : CrawlSt) (u : String) (dep : Nat)
    (html : String) (e : Extracted) :
    (processThick env mp md al st u dep html e).seenHashes = st.seenHashes ∨
      (processThick env mp md al st u dep html e).seenHashes =
        st.seenHashes ++ [env.hashFn e.text] := by
  unfold processThick
  dsimp only
  split
  · exact Or.inl rfl
  · split <;> rw [enqueueLinks_hashes] <;> exact Or.inr rfl

theorem processTask_failed (env : CrawlEnv) (mp md : Nat)
    (al : Option (List String)) (st : CrawlSt) (t : String × Nat)
    (h : env.netFetch t.1 = none) :
    processTask env mp md al st t = { st with fetchLog := st.fetchLog ++ [t.1] } := by
  unfold processTask
  rw [h]

theorem processTask_results (env : CrawlEnv) (mp md : Nat)
    (al : Option (List String)) (st : CrawlSt) (t : String × Nat) :
    ∀ d ∈ (processTask env mp md al st t).results,
      d ∈ st.results ∨ (d.url = t.1 ∧ includeBool al d.content_type = true) := by
  intro d hd
  unfold processTask at hd
  dsimp only at hd
  split at hd
  · exact Or.inl hd
  · split at hd
    · exact Or.inl hd
    · split at hd
      · rw [markVisited_results] at hd
        exact Or.inl hd
      · rcases processThick_results env mp md al _ t.1 t.2 _ _ d hd with h | h
        · rw [markVisited_results] at h
          exact Or.inl h
        · exact Or.inr h

theorem processTask_visited (env : CrawlEnv) (mp md : Nat)
    (al : Option (List String)) (st : CrawlSt) (t : String × Nat) :
    (processTask env mp md al st t).visited = st.visited ∨
      (processTask env mp md al st t).visited = st.visited ++ [t.1] := by
  unfold processTask
  dsimp only
  split
  · exact Or.inl rfl
  · split
    · exact Or.inl rfl
    · split
      · unfold markVisited
        dsimp only
        split
        · exact Or.inl rfl
        · exact Or.inr rfl
      · rw [processThick_visited]
        unfold markVisited
        dsimp only
        split
        · exact Or.inl rfl
        · exact Or.inr rfl

theorem processTask_hashes (env : CrawlEnv) (mp md : Nat)
    (al : Option (List String)) (st : CrawlSt) (t : String × Nat) :
    (processTask env mp md al st t).seenHashes = st.seenHashes ∨
      ∃ html, env.netFetch t.1 = some html ∧
        ¬ (env.extract html).text.length < 200 ∧
        (processTask env mp md al st t).seenHashes =
          st.seenHashes ++ [env.hashFn (env.extract html).text] := by
  unfold processTask
  dsimp only
  split
  · exact Or.inl rfl
  · rename_i html hfe
    split
    · exact Or.inl rfl
    · split
      · exact Or.inl rfl
      · rename_i hthin
        rcases processThick_hashes env mp md al _ t.1 t.2 html (env.extract html) with h | h
        · exact Or.inl h
        · right
          refine ⟨html, hfe, fun hlt => hthin (Or.inr hlt), h⟩

theorem processTask_visited_le (env : CrawlEnv) (mp md : Nat)
    (al : Option (List String)) (st : CrawlSt) (t : String × Nat) :
    (processTask env mp md al st t).visited.length ≤ st.visited.length + 1 := by
  rcases processTask_visited env mp md al st t with h | h <;> rw [h] <;> simp

theorem foldl_processTask_visited_le (env : CrawlEnv) (mp md : Nat)
    (al : Option (List String)) :
    ∀ (ts : List (String × Nat)) (st : CrawlSt),
      (ts.foldl (processTask env mp md al) st).visited.length ≤
        st.visited.length + ts.length
  | [], st => by simp
  | t :: ts, st => by
      rw [List.foldl_cons]
      have h1 := foldl_processTask_visited_le env mp md al ts (processTask env mp md al st t)
      have h2 := processTask_visited_le env mp md al st t
      simp only [List.length_cons]
      omega

theorem crawlStep_visited_le (env : CrawlEnv) (mp md : Nat)
    (al : Option (List String)) (st : CrawlSt) :
    (crawlStep env mp md al st).visited.length ≤
      st.visited.length + MAX_CONCURRENCY := by
  unfold crawlStep
  dsimp only
  have h1 := foldl_processTask_visited_le env mp md al
    ((st.queue.take MAX_CONCURRENCY).filter
      (fun t => decide (¬ t.1 ∈ st.visited ∧ t.2 ≤ md)))
    { st with queue := st.queue.drop MAX_CONCURRENCY }
  have h2 : ((st.queue.take MAX_CONCURRENCY).filter
      (fun t => decide (¬ t.1 ∈ st.visited ∧ t.2 ≤ md))).length ≤ MAX_CONCURRENCY := by
    calc ((st.queue.take MAX_CONCURRENCY).filter
        (fun t => decide (¬ t.1 ∈ st.visited ∧ t.2 ≤ md))).length
        ≤ (st.queue.take MAX_CONCURRENCY).length := List.length_filter_le _ _
      _ ≤ MAX_CONCURRENCY := List.length_take_le _ _
  simp only at h1
  omega

theorem crawlRun_preserve (env : CrawlEnv) (mp md : Nat)
    (al : Option (List String)) (P : CrawlSt → Prop)
    (hstep : ∀ st, st.visited.length < mp → P st → P (crawlStep env mp md al st)) :
    ∀ (fuel : Nat) (st : CrawlSt), P st → P (crawlRun env mp md al fuel st)
  | 0, _, h => h
  | fuel + 1, st, h => by
      unfold crawlRun
      split
      · rename_i hc
        exact crawlRun_preserve env mp md al P hstep fuel _ (hstep st hc.2 h)
      · exact h

theorem crawlStep_preserve (env : CrawlEnv) (mp md : Nat)
    (al : Option (List String)) (P : CrawlSt → Prop)
    (hq : ∀ st q, P st → P { st with queue := q })
    (ht : ∀ st t, P st → P (processTask env mp md al st t)) :
    ∀ st, P st → P (crawlStep env mp md al st) := by
  intro st h
  unfold crawlStep
  dsimp only
  exact foldlPreserve _ P ht _ _ (hq st _ h)

theorem build_docs_append {Tok V : Type} (tz : Tokenizer Tok) (f : String → V)
    (st : EmbState V) (c : List CrawlDoc) (u : List UploadDoc) (r : BuildResult V)
    (hr : build_embeddings_incremental tz f st c u = some r) :
    r.state.docs = st.docs ++ toEmbedDocs st c u := by
  unfold build_embeddings_incremental at hr
  dsimp only at hr
  split at hr
  · rename_i hemp
    cases hr
    rw [List.isEmpty_iff] at hemp
    simp [hemp]
  · split at hr
    · exact Option.noConfusion hr
    · cases hr
      dsimp only
      rw [buildFold_docs]

theorem build_of_nil {Tok V : Type} (tz : Tokenizer Tok) (f : String → V)
    (st : EmbState V) (c : List CrawlDoc) (u : List UploadDoc)
    (h : toEmbedDocs st c u = []) :
    build_embeddings_incremental tz f st c u = some { state := st, processed := 0 } := by
  unfold build_embeddings_incremental
  dsimp only
  rw [h]
  rfl

/-- C1 counterexample: the Store holds one Document for urlA; re-crawling
that page with changed text and re-ingesting leaves TWO Store entries
keyed by urlA — the prior Document is not replaced in place and the
entry count for that URL grows. -/
theorem claimC1_counterexample :
    countUrl urlA stOne.docs = 1 ∧
      (build_embeddings_incremental tzChar embedU stOne [dNew] []).map
        (fun r => countUrl urlA r.state.docs) = some 2 :=
  ⟨rfl, rfl⟩

/-- C1 (amended): build_embeddings_incremental never replaces a stored
Document: the Document Store after a run is exactly the previous Store
followed by every newly ingested document, so a re-crawled changed page
is appended next to its old version and the per-URL entry count can
grow. -/
theorem claimC1_append {Tok V : Type} (tz : Tokenizer Tok) (f : String → V)
    (st : EmbState V) (c : List CrawlDoc) (u : List UploadDoc) (r : BuildResult V)
    (hr : build_embeddings_incremental tz f st c u = some r) :
    r.state.docs = st.docs ++ toEmbedDocs st c u :=
  build_docs_append tz f st c u r hr

/-- C1 witness: the amended statement at the concrete re-crawl. -/
theorem claimC1_append_witness :
    rTwo.state.docs = stOne.docs ++ toEmbedDocs stOne [dNew] [] :=
  claimC1_append tzChar embedU stOne [dNew] [] rTwo rfl

/-- C2: a run of build_embeddings_incremental (the embedding stage of
both refresh and upload ingestion) that returns preserves the store
invariant: the chunk map is exactly as long as the vector index and
every chunk-map entry is a valid index into the Document Store.  (The
fresh stores — empty map, missing index, empty docs — satisfy the
invariant trivially, so it holds after every run.) -/
theorem claimC2_invariant {Tok V : Type} (tz : Tokenizer Tok) (f : String → V)
    (st : EmbState V) (c : List CrawlDoc) (u : List UploadDoc) (r : BuildResult V)
    (hinv : embInvariant st)
    (hr : build_embeddings_incremental tz f st c u = some r) :
    embInvariant r.state := by
  obtain ⟨hlen, hval⟩ := hinv
  unfold build_embeddings_incremental at hr
  dsimp only at hr
  split at hr
  · cases hr
    exact ⟨hlen, hval⟩
  · split at hr
    · exact Option.noConfusion hr
    · cases hr
      constructor
      · show (st.chunkMap ++ _).length = vectorCount _
        have hacc := buildFold_len tz f (toEmbedDocs st c u)
          { docs := st.docs, vecs := [], entries := [] } rfl
        have hidx : (st.index.getD []).length = vectorCount st := by
          cases h : st.index <;> simp [vectorCount, h]
        simp only [vectorCount, List.length_append]
        omega
      · intro e he
        rw [List.mem_append] at he
        rcases he with he | he
        · have h1 := hval e he
          have h2 := buildFold_docs tz f (toEmbedDocs st c u)
            { docs := st.docs, vecs := [], entries := [] }
          show e < _
          rw [h2]
          simp only [List.length_append]
          omega
        · exact buildFold_entries tz f (toEmbedDocs st c u)
            { docs := st.docs, vecs := [], entries := [] } (by intro e h; simp at h) e he

/-- C2 witness: the invariant after the concrete re-ingest run. -/
theorem claimC2_invariant_witness : embInvariant rTwo.state :=
  claimC2_invariant tzChar embedU stOne [dNew] [] rTwo ⟨rfl, by decide⟩ rfl

/-- C4: when every document delivered by the crawl dump and the upload
file is already stored, build_embeddings_incremental returns with the
stores untouched and zero documents processed (hence zero embedding API
calls); and a second run straight after any returning run processes
zero documents and changes nothing (idempotence of refresh on an
unchanged site). -/
theorem claimC4_idempotent {Tok V : Type} (tz : Tokenizer Tok) (f : String → V)
    (st : EmbState V) (c : List CrawlDoc) (u : List UploadDoc) :
    ((∀ d ∈ c.map Sum.inl ++ u.map Sum.inr, d ∈ st.docs) →
        build_embeddings_incremental tz f st c u =
          some { state := st, processed := 0 }) ∧
      (∀ r : BuildResult V, build_embeddings_incremental tz f st c u = some r →
        build_embeddings_incremental tz f r.state c u =
          some { state := r.state, processed := 0 }) := by
  constructor
  · intro hall
    refine build_of_nil tz f st c u ?_
    rw [toEmbedDocs, List.filter_eq_nil_iff]
    intro d hd
    have hm := (pyMem_iff d st.docs).2 (hall d hd)
    simp [hm]
  · intro r hr
    refine build_of_nil tz f r.state c u ?_
    rw [toEmbedDocs, List.filter_eq_nil_iff]
    intro d hd
    have hm : pyMem d r.state.docs = true := by
      refine (pyMem_iff d r.state.docs).2 ?_
      rw [build_docs_append tz f st c u r hr, List.mem_append]
      by_cases hmem : pyMem d st.docs = true
      · exact Or.inl ((pyMem_iff d st.docs).1 hmem)
      · refine Or.inr ?_
        rw [toEmbedDocs, List.mem_filter]
        exact ⟨hd, by simp [hmem]⟩
    simp [hm]

/-- C4 witness: re-ingesting the already stored document leaves the
store untouched and processes zero documents. -/
theorem claimC4_idempotent_witness :
    build_embeddings_incremental tzChar embedU stOne [dOld] [] =
      some { state := stOne, processed := 0 } :=
  (claimC4_idempotent tzChar embedU stOne [dOld] []).1
    (by intro d hd; simpa [stOne] using hd)

/-- C7 counterexample: the empty text tokenizes to zero tokens — fewer
than the budget — yet chunk_text returns no chunk at all, not one chunk
equal to the input. -/
theorem claimC7_counterexample :
    (tzChar.encode "").length < MAX_TOKENS_PER_CHUNK ∧
      chunk_text tzChar "" MAX_TOKENS_PER_CHUNK = [] :=
  ⟨by decide, rfl⟩

/-- C7 (amended): for a tokenizer whose decode inverts encode and vice
versa (true of the byte-pair encoder on its own output), a text whose
tokenization is non-empty and within the budget comes back as exactly
one chunk equal to the text, while the empty tokenization yields zero
chunks; and every returned chunk re-tokenizes to at most the budget. -/
theorem claimC7_chunk {Tok : Type} (tz : Tokenizer Tok) (text : String) (m : Nat)
    (hdec : ∀ s, tz.decode (tz.encode s) = s)
    (henc : ∀ l, tz.encode (tz.decode l) = l) :
    (0 < (tz.encode text).length → (tz.encode text).length ≤ m →
        chunk_text tz text m = [text]) ∧
      ∀ c ∈ chunk_text tz text m, (tz.encode c).length ≤ m := by
  constructor
  · intro hpos hle
    unfold chunk_text
    obtain ⟨t, ts, hts⟩ : ∃ t ts, tz.encode text = t :: ts := by
      cases h : tz.encode text
      · rw [h] at hpos
        simp at hpos
      · exact ⟨_, _, rfl⟩
    rw [hts] at hle ⊢
    rw [chunkLoop_single m t ts hle]
    simp only [List.map_cons, List.map_nil]
    rw [← hts, hdec]
  · intro c hc
    unfold chunk_text at hc
    rw [List.mem_map] at hc
    obtain ⟨sl, hsl, rfl⟩ := hc
    rw [henc]
    exact chunkLoop_mem_le m _ _ sl hsl

/-- C7 witness: a two-token text within the budget round-trips as one
chunk. -/
theorem claimC7_chunk_witness :
    chunk_text tzChar "ab" MAX_TOKENS_PER_CHUNK = ["ab"] :=
  (claimC7_chunk tzChar "ab" MAX_TOKENS_PER_CHUNK (fun s => rfl) (fun l => rfl)).1
    (by decide) (by decide)

/-- C8 counterexample: two retrieved chunks resolving to the same
Document make it appear TWICE in the search result — duplicates are not
collapsed into a single best-ranked occurrence. -/
theorem claimC8_counterexample :
    search_similar stDup [0, 1] = some [Sum.inl dOld, Sum.inl dOld] ∧
      ((search_similar stDup [0, 1]).getD []).countP
        (fun d => decide (d = Sum.inl dOld)) = 2 :=
  ⟨rfl, rfl⟩

/-- C8 (amended): for the non-negative ids FAISS returns whenever the
index holds at least top_k vectors, the resolution loop emits one
Document per retrieved id, in the retrieval (distance-ascending) order,
skipping only out-of-range ids — the same Document appears once per hit,
never collapsed. -/
theorem claimC8_order (docs : List PyDoc) (cm : List Nat) (I : List Int)
    (h : ∀ i ∈ I, (0 : Int) ≤ i) :
    resolveHits docs cm I = some (I.filterMap (hitOf docs cm)) := by
  induction I with
  | nil => rfl
  | cons idx rest ih =>
      have h0 : (0 : Int) ≤ idx := h idx (List.mem_cons_self _ _)
      have hrest := ih (fun i hi => h i (List.mem_cons_of_mem _ hi))
      rw [List.filterMap_cons]
      unfold resolveHits
      by_cases hlt : idx < (cm.length : Int)
      · rw [if_pos hlt]
        have hidx : idx.toNat < cm.length := by omega
        have hg : pyListGet cm idx = some (cm.get ⟨idx.toNat, hidx⟩) := by
          unfold pyListGet
          rw [if_pos h0, List.get?_eq_get hidx]
        rw [hg]
        dsimp only
        have hhit : hitOf docs cm idx = docs.get? (cm.get ⟨idx.toNat, hidx⟩) := by
          unfold hitOf
          rw [if_pos hlt, hg]
          rfl
        by_cases hdid : cm.get ⟨idx.toNat, hidx⟩ < docs.length
        · rw [dif_pos hdid, hrest, hhit, List.get?_eq_get hdid]
          rfl
        · rw [dif_neg hdid, hrest, hhit, List.get?_eq_none.2 (by omega)]
      · rw [if_neg hlt, hrest]
        have : hitOf docs cm idx = none := by
          unfold hitOf
          rw [if_neg hlt]
        rw [this]

/-- C8 witness: the amended characterisation at the duplicated-hit
store. -/
theorem claimC8_order_witness :
    resolveHits stDup.docs stDup.chunkMap [0, 1] =
      some ([0, 1].filterMap (hitOf stDup.docs stDup.chunkMap)) :=
  claimC8_order stDup.docs stDup.chunkMap [0, 1] (by decide)

/-- C9: on a freshly initialized, never-refreshed system the index file
does not exist, load_index returns None, and search_similar returns the
empty list for every query and top_k rather than raising. -/
theorem claimC9_empty_index {V : Type} (st : EmbState V) (hits : List Int)
    (h : st.index = none) : search_similar st hits = some [] := by
  unfold search_similar
  rw [h]

/-- C9 witness: retrieval on completely fresh stores. -/
theorem claimC9_empty_index_witness :
    search_similar
      ({ docs := [], chunkMap := [], index := none } : EmbState Unit)
      [-1, -1, -1, -1, -1] = some [] :=
  claimC9_empty_index _ _ rfl

set_option maxRecDepth 40000 in
/-- C6 counterexample: with maxPages = 5 the seed page fans out to nine
links; the next batch of five is dispatched while only one URL is
visited, so the crawler ends the run having visited SIX distinct
normalized URLs — more than maxPages. -/
theorem claimC6_counterexample :
    (crawlAsync envFan 5 3 none BASE_URL 5).visited.length = 6 := by
  decide

/-- C6 (amended): the visited set is only bounded by maxPages plus the
batch width minus one: the while condition is checked before a batch of
up to MAX_CONCURRENCY fetches, each of which can add one visited URL,
so at most maxPages - 1 + MAX_CONCURRENCY distinct URLs are visited. -/
theorem claimC6_bound (env : CrawlEnv) (mp md : Nat) (al : Option (List String))
    (s : String) (fuel : Nat) :
    (crawlAsync env mp md al s fuel).visited.length ≤
      mp + (MAX_CONCURRENCY - 1) := by
  unfold crawlAsync
  refine crawlRun_preserve env mp md al
    (fun st => st.visited.length ≤ mp + (MAX_CONCURRENCY - 1)) ?_ fuel _ ?_
  · intro st hlt h
    have hstep := crawlStep_visited_le env mp md al st
    have hM : MAX_CONCURRENCY = 5 := rfl
    omega
  · simp [crawlInit]

set_option maxRecDepth 40000 in
/-- C5 counterexample: the page at urlB always fails to fetch; it is
discovered from the seed page, fetched, NOT marked visited, rediscovered
from page a and fetched a second time in the same run — two fetch
attempts for urlB and urlB absent from the visited set. -/
theorem claimC5_counterexample :
    ¬ urlB ∈ (crawlAsync envBroken 10 3 none BASE_URL 5).visited ∧
      (crawlAsync envBroken 10 3 none BASE_URL 5).fetchLog.count urlB = 2 := by
  constructor
  · decide
  · decide

/-- C5 (amended): a URL whose every fetch errors yields no page and is
never added to the visited set (the code marks a URL visited only after
a successful fetch), so it contributes no result; it may be fetched
again when rediscovered, since the visited check cannot stop it. -/
theorem claimC5_failed_fetch (env : CrawlEnv) (mp md : Nat)
    (al : Option (List String)) (s : String) (fuel : Nat) (u : String)
    (h : env.netFetch u = none) :
    ¬ u ∈ (crawlAsync env mp md al s fuel).visited ∧
      ∀ d ∈ (crawlAsync env mp md al s fuel).results, d.url ≠ u := by
  unfold crawlAsync
  refine crawlRun_preserve env mp md al
    (fun st => (¬ u ∈ st.visited) ∧ ∀ d ∈ st.results, d.url ≠ u) ?_ fuel _ ?_
  · intro st hlt hP
    refine crawlStep_preserve env mp md al
      (fun st => (¬ u ∈ st.visited) ∧ ∀ d ∈ st.results, d.url ≠ u) ?_ ?_ st hP
    · intro st' q hP'
      exact hP'
    · intro st' t hP'
      by_cases ht : t.1 = u
      · rw [processTask_failed env mp md al st' t (ht ▸ h)]
        exact hP'
      · constructor
        · rcases processTask_visited env mp md al st' t with hv | hv
          · rw [hv]
            exact hP'.1
          · rw [hv]
            intro hmem
            rcases List.mem_append.1 hmem with hm | hm
            · exact hP'.1 hm
            · exact ht (List.mem_singleton.1 hm).symm
        · intro d hd
          rcases processTask_results env mp md al st' t d hd with hr | hr
          · exact hP'.2 d hr
          · rw [hr.1]
            exact ht
  · constructor
    · simp [crawlInit]
    · intro d hd
      simp [crawlInit] at hd

/-- C5 witness: the amended statement at the concrete broken link. -/
theorem claimC5_failed_fetch_witness :
    ¬ urlB ∈ (crawlAsync envBroken 10 3 none BASE_URL 5).visited :=
  (claimC5_failed_fetch envBroken 10 3 none BASE_URL 5 urlB rfl).1

set_option maxRecDepth 40000 in
/-- C3 counterexample: in the envThin run two pages are fetched (both
appear in the visited set) but only ONE checksum is recorded — the thin
page leaves the checksum state untouched, so there is no checksum per
fetched URL and the entry is not updated unconditionally. -/
theorem claimC3_counterexample :
    (crawlAsync envThin 10 3 none BASE_URL 5).visited.length = 2 ∧
      (crawlAsync envThin 10 3 none BASE_URL 5).seenHashes.length = 1 := by
  constructor
  · decide
  · decide

/-- C3 (amended): the crawler keeps a run-local SET of content hashes,
not a URL-keyed table: a successfully fetched page whose extracted text
is shorter than 200 characters leaves the hash state (and the results)
unchanged, and every recorded hash is the digest of the EXTRACTED text
of some fetched page whose text is at least 200 characters long — the
raw markup is never hashed. -/
theorem claimC3_hashes (env : CrawlEnv) (mp md : Nat)
    (al : Option (List String)) :
    (∀ (st : CrawlSt) (t : String × Nat) (html : String),
        env.netFetch t.1 = some html → html ≠ "" →
        (env.extract html).text.length < 200 →
        (processTask env mp md al st t).seenHashes = st.seenHashes ∧
          (processTask env mp md al st t).results = st.results) ∧
      ∀ (fuel : Nat) (s : String) (x : Nat),
        x ∈ (crawlAsync env mp md al s fuel).seenHashes →
        ∃ html, x = env.hashFn (env.extract html).text ∧
          200 ≤ (env.extract html).text.length := by
  constructor
  · intro st t html hfe hne hthin
    unfold processTask
    rw [hfe]
    dsimp only
    rw [if_neg hne, if_pos (Or.inr hthin)]
    exact ⟨rfl, rfl⟩
  · intro fuel s x hx
    refine crawlRun_preserve env mp md al
      (fun st => ∀ y ∈ st.seenHashes,
        ∃ html, y = env.hashFn (env.extract html).text ∧
          200 ≤ (env.extract html).text.length) ?_ fuel _ ?_ x hx
    · intro st hlt hP
      refine crawlStep_preserve env mp md al
        (fun st => ∀ y ∈ st.seenHashes,
          ∃ html, y = env.hashFn (env.extract html).text ∧
            200 ≤ (env.extract html).text.length) ?_ ?_ st hP
      · intro st' q hP'
        exact hP'
      · intro st' t hP' y hy
        rcases processTask_hashes env mp md al st' t with hh | ⟨html, _, hlen, hh⟩
        · rw [hh] at hy
          exact hP' y hy
        · rw [hh] at hy
          rcases List.mem_append.1 hy with hm | hm
          · exact hP' y hm
          · rw [List.mem_singleton.1 hm]
            exact ⟨html, rfl, by omega⟩
    · intro y hy
      simp [crawlInit] at hy

/-- C3 witness: processing the concrete thin page records no checksum. -/
theorem claimC3_hashes_witness :
    (processTask envThin 10 3 none (crawlInit BASE_URL) (urlT, 1)).seenHashes =
      (crawlInit BASE_URL).seenHashes :=
  ((claimC3_hashes envThin 10 3 none).1 (crawlInit BASE_URL) (urlT, 1) "THIN"
    rfl (by decide) (by decide)).1

/-- C10: when crawl_comune_arezzo is given a non-empty list of allowed
content types, every document in the returned result list carries a
content_type from that list — pages classified outside the list are
still fetched and hashed but never appended to the results. -/
theorem claimC10_filter (env : CrawlEnv) (mp md fuel : Nat) (ts : List String)
    (hne : ts ≠ []) :
    ∀ d ∈ crawl_comune_arezzo env mp md (some ts) fuel, d.content_type ∈ ts := by
  cases ts with
  | nil => exact absurd rfl hne
  | cons t0 ts0 =>
      intro d hd
      unfold crawl_comune_arezzo crawlAsync at hd
      dsimp only at hd
      refine crawlRun_preserve env mp md (some (t0 :: ts0))
        (fun st => ∀ d ∈ st.results, d.content_type ∈ t0 :: ts0) ?_ fuel
        (crawlInit BASE_URL) ?_ d hd
      · intro st hlt hP
        refine crawlStep_preserve env mp md (some (t0 :: ts0))
          (fun st => ∀ d ∈ st.results, d.content_type ∈ t0 :: ts0) ?_ ?_ st hP
        · intro st' q hP'
          exact hP'
        · intro st' t hP' d' hd'
          rcases processTask_results env mp md (some (t0 :: ts0)) st' t d' hd'
            with hr | hr
          · exact hP' d' hr
          · have hinc := hr.2
            unfold includeBool at hinc
            simp only [List.isEmpty_cons, Bool.false_or, List.any_eq_true,
              decide_eq_true_eq] at hinc
            obtain ⟨x, hx, hxe⟩ := hinc
            rw [← hxe]
            exact hx
      · intro d' hd'
        simp [crawlInit] at hd'

set_option maxRecDepth 40000 in
/-- C10 witness: a filtered crawl whose first result is the seed page,
classified pagina, inside the allowed list. -/
theorem claimC10_filter_witness :
    (crawl_comune_arezzo envThin 10 3 (some ["pagina"]) 5).head? =
        some docRootThin ∧
      docRootThin.content_type ∈ ["pagina"] :=
  ⟨by decide,
    claimC10_filter envThin 10 3 5 ["pagina"] (by decide) docRootThin (by decide)⟩
